import Mathlib

/-!
Verification development for the arkiv repository (RAG desktop client +
FastAPI backend schemas).

The definitions below are a shallow embedding of the JavaScript client
modules (`api_client.js`, `chat_manager.js`, `chat.js`) and of the backend
pydantic schemas (`api/schemas.py`).  JSON values are modelled by an
inductive type, pydantic models by structures together with validation
functions, and the mutable chat-manager state (JS `Map` plus array
references) by an explicit state record with a reference heap, so that
aliasing and copying of message arrays is faithfully represented.
-/

/-- A JSON value, as exchanged between the desktop client and the backend.
Numbers are split into integral (`jint`) and general (`jnum`) values,
mirroring JSON integers vs. floats; `jnum` carries a rational stand-in for
the float payload, which is never computed with here. -/
inductive JVal where
  | jnull : JVal
  | jbool : Bool → JVal
  | jint : Int → JVal
  | jnum : Rat → JVal
  | jstr : String → JVal
  | jarr : List JVal → JVal
  | jobj : List (String × JVal) → JVal

/-- A JSON object body: an association list of field names to values. -/
abbrev JObj := List (String × JVal)

/-- Field lookup in a JSON object (first occurrence wins, as in parsed JSON). -/
def jlookup (o : JObj) (k : String) : Option JVal :=
  match o with
  | [] => none
  | (a, v) :: rest => if a = k then some v else jlookup rest k

/-! ## Backend schemas (`api/schemas.py`)

`QueryRequest`, `Source`, `QueryResponse`, `UploadResponse` are the pydantic
models of the backend.  Each `validate` function embeds pydantic's parsing of
a JSON object against the model: every declared field without a default is
required with its declared type, `Optional[...] = None` fields may be absent
or `null`, and fields not declared on the model are ignored (pydantic's
default behaviour for extra input fields).  `float` fields accept integral
JSON numbers as well, as pydantic coerces `int` to `float`. -/

/-- Request model for querying the LLM: the only declared field is
`query_text` (a string with `min_length=1`); the `top_k` field is commented
out in the source and no other field is declared. -/
structure QueryRequest where
  query_text : String
deriving DecidableEq

/-- The declared field names of the `QueryRequest` pydantic model. -/
def QueryRequest.fieldNames : List String := ["query_text"]

/-- Pydantic validation of a JSON body against `QueryRequest`:
`query_text` is required, must be a string, and must have length at least 1
(`min_length=1`); all other input fields are ignored. -/
def QueryRequest.validate (o : JObj) : Option QueryRequest :=
  match jlookup o "query_text" with
  | some (JVal.jstr s) => if 1 ≤ s.length then some ⟨s⟩ else none
  | _ => none

/-- A source chunk used as context for the LLM: `document_name`, `chunk_id`
and `text_preview` are required; `score` is `Optional[float] = None`. -/
structure Source where
  document_name : String
  chunk_id : Int
  text_preview : String
  score : Option Rat
deriving DecidableEq

/-- Pydantic validation of a JSON object against `Source`: the three
non-optional fields are required with their declared types; `score` may be
absent or `null` (defaulting to `None`), and otherwise must be a number
(integral numbers are coerced to float). -/
def Source.validate (o : JObj) : Option Source :=
  match jlookup o "document_name", jlookup o "chunk_id", jlookup o "text_preview" with
  | some (JVal.jstr dn), some (JVal.jint cid), some (JVal.jstr tp) =>
      match jlookup o "score" with
      | none => some ⟨dn, cid, tp, none⟩
      | some JVal.jnull => some ⟨dn, cid, tp, none⟩
      | some (JVal.jint n) => some ⟨dn, cid, tp, some (n : Rat)⟩
      | some (JVal.jnum q) => some ⟨dn, cid, tp, some q⟩
      | some _ => none
  | _, _, _ => none

/-- Response model for an LLM query. -/
structure QueryResponse where
  llm_response : String
  sources : List Source
deriving DecidableEq

/-- Response model for a file upload: all four fields are declared without
defaults, hence required. -/
structure UploadResponse where
  filename : String
  message : String
  chunks_added : Int
  total_vectors_in_store : Int
deriving DecidableEq

/-- Pydantic validation of a JSON object against `UploadResponse`: each of
the four declared fields is required with its declared type; extra input
fields are ignored. -/
def UploadResponse.validate (o : JObj) : Option UploadResponse :=
  match jlookup o "filename", jlookup o "message",
        jlookup o "chunks_added", jlookup o "total_vectors_in_store" with
  | some (JVal.jstr fn), some (JVal.jstr msg), some (JVal.jint ca), some (JVal.jint tv) =>
      some ⟨fn, msg, ca, tv⟩
  | _, _, _, _ => none

/-! ## API client (`src/modules/api_client/api_client.js`)

`uploadFile` builds a multipart form with the single field `file` and POSTs
it to `/api/v1/upload`; `queryLLM` projects the chat history to
`{role, content}` records, pushes the current user query, and POSTs the JSON
body to `/api/v1/query`.  Both reject on a non-2xx response with
`new Error(errorData.detail || fallback)`.  Request construction and
response handling are embedded as separate functions of the same source
function. -/

/-- The client's API version constant. -/
def API_VERSION : String := "v1"

/-- A file object, opaque to the client except for its name. -/
structure FileObj where
  name : String
deriving DecidableEq

/-- A multipart form body: an ordered list of (field name, file) entries. -/
abbrev FormDataT := List (String × FileObj)

/-- `new FormData()`: the empty form. -/
def FormData.new : FormDataT := []

/-- `formData.append(k, v)`: appends one entry to the form. -/
def FormData.append (fd : FormDataT) (k : String) (v : FileObj) : FormDataT :=
  fd ++ [(k, v)]

/-- The HTTP request sent by `uploadFile`. -/
structure UploadHttpRequest where
  url : String
  method : String
  formData : FormDataT
deriving DecidableEq

/-- Request construction of `uploadFile`: URL
`${RAG_SERVICE_URL}/api/${API_VERSION}/upload`, method POST, and a fresh
form with `file` appended once. -/
def uploadFile.request (ragServiceUrl : String) (file : FileObj) : UploadHttpRequest :=
  let url := ragServiceUrl ++ "/api/" ++ API_VERSION ++ "/upload"
  let formData := FormData.new
  let formData := FormData.append formData "file" file
  { url := url, method := "POST", formData := formData }

/-- An HTTP response as seen by the client: `response.ok` (status in the 2xx
range) and the JSON body returned by `response.json()`. -/
structure HttpResponse where
  ok : Bool
  body : JObj

/-- JS truthiness of a JSON value: `null`, `false`, `0` and the empty
string are falsy; every other JSON value — including any array or object —
is truthy.  (NaN, the only other falsy JS value, is not a JSON value.) -/
def JVal.truthy : JVal → Bool
  | JVal.jnull => false
  | JVal.jbool b => b
  | JVal.jint n => decide (n ≠ 0)
  | JVal.jnum q => decide (q ≠ 0)
  | JVal.jstr s => decide (s ≠ "")
  | JVal.jarr _ => true
  | JVal.jobj _ => true

/-- The JS expression `errorData.detail || fallback` on a parsed error body:
the `detail` value itself when it is present and truthy, the fallback string
otherwise (absent `detail` reads as `undefined`, which is falsy).  The
selected value is what `new Error(...)` receives; the resulting message is
its JS stringification, which for a string value is that string itself. -/
def detailOrFallback (body : JObj) (fallback : String) : JVal :=
  match jlookup body "detail" with
  | some v => if v.truthy then v else JVal.jstr fallback
  | none => JVal.jstr fallback

/-- Response handling of `uploadFile`: on a non-ok response it throws
`new Error(errorData.detail || 'File upload failed')`; otherwise it resolves
with the parsed body.  The error carries the value passed to `Error`. -/
def uploadFile.result (resp : HttpResponse) : Except JVal JObj :=
  if resp.ok then Except.ok resp.body
  else Except.error (detailOrFallback resp.body "File upload failed")

/-- A chat message as sent to the backend: `{role, content}`. -/
structure ChatMsg where
  role : String
  content : String
deriving DecidableEq

/-- A client-side message object as stored by the chat manager: role,
content, a `type` tag, and optional sources (present on assistant
messages). -/
structure Message where
  role : String
  content : String
  type : String
  sources : Option (List Source)
deriving DecidableEq

/-- The projection `msg => ({role: msg.role, content: msg.content})` applied
to each history element inside `queryLLM`. -/
def projectMsg (m : Message) : ChatMsg :=
  { role := m.role, content := m.content }

/-- The JSON body `{query_text, chat_history}` sent by `queryLLM`. -/
structure QueryBody where
  query_text : String
  chat_history : List ChatMsg
deriving DecidableEq

/-- Body construction of `queryLLM`: `messages = chatHistory.map(projection)`
(a fresh array, leaving `chatHistory` untouched), then
`messages.push({role: 'user', content: queryText})`, then the JSON body with
`query_text` and `chat_history = messages`. -/
def queryLLM.body (queryText : String) (chatHistory : List Message) : QueryBody :=
  let messages := chatHistory.map projectMsg
  let messages := messages ++ [{ role := "user", content := queryText }]
  { query_text := queryText, chat_history := messages }

/-- Response handling of `queryLLM`: on a non-ok response it throws
`new Error(errorData.detail || 'LLM query failed')`; otherwise it resolves
with the parsed body.  The error carries the value passed to `Error`. -/
def queryLLM.result (resp : HttpResponse) : Except JVal JObj :=
  if resp.ok then Except.ok resp.body
  else Except.error (detailOrFallback resp.body "LLM query failed")

/-! ## Chat manager (`src/modules/chat_manager/chat_manager.js`)

The chat manager keeps a JS `Map` from chat ids to session objects, each
holding a `messages` array, plus a module-level `activeChatId`.  JS arrays
are mutable objects: `getChatHistory` returns a *spread copy*
`[...session.messages]` while `addMessageToHistory` pushes onto the stored
array in place.  To capture this aliasing structure the state carries an
explicit heap of array references: `heap` maps a reference to the list it
currently holds, `chatSessions` maps a chat id to the reference of its
`messages` array, and `nextRef` is the next fresh reference. -/

/-- An array reference (JS object identity of a `messages` array). -/
abbrev Ref := Nat

/-- A message as stored by `addMessageToHistory`: the input object spread
together with an added `timestamp` field. -/
structure StoredMessage where
  msg : Message
  timestamp : String
deriving DecidableEq

/-- Association-list lookup by key (first occurrence). -/
def alookup {α β : Type} [DecidableEq α] (k : α) : List (α × β) → Option β
  | [] => none
  | (a, b) :: rest => if a = k then some b else alookup k rest

/-- Association-list update: replace the value at every entry with key `k`
(in the states below keys occur at most once). -/
def aupdate {α β : Type} [DecidableEq α] (k : α) (v : β) : List (α × β) → List (α × β)
  | [] => []
  | (a, b) :: rest =>
      if a = k then (a, v) :: aupdate k v rest else (a, b) :: aupdate k v rest

/-- The chat manager's mutable state. -/
structure ChatManagerState where
  heap : List (Ref × List StoredMessage)
  chatSessions : List (String × Ref)
  activeChatId : Option String
  nextRef : Ref
deriving DecidableEq

/-- JS `Map.set`: overwrite the value when the key is present (keeping its
position), insert at the end otherwise. -/
def mapSet (m : List (String × Ref)) (k : String) (v : Ref) : List (String × Ref) :=
  if (alookup k m).isSome then aupdate k v m else m ++ [(k, v)]

/-- Allocate a fresh array holding `xs` (a JS array literal or spread copy);
returns the new state and the new array's reference. -/
def allocArr (st : ChatManagerState) (xs : List StoredMessage) :
    ChatManagerState × Ref :=
  ({ st with heap := st.heap ++ [(st.nextRef, xs)], nextRef := st.nextRef + 1 },
   st.nextRef)

/-- Read the list currently held by an array reference. -/
def readArr (st : ChatManagerState) (r : Ref) : Option (List StoredMessage) :=
  alookup r st.heap

/-- Overwrite the list held by an array reference (an in-place array
mutation, e.g. `push` or any external mutation of a returned array). -/
def writeArr (st : ChatManagerState) (r : Ref) (xs : List StoredMessage) :
    ChatManagerState :=
  { st with heap := aupdate r xs st.heap }

/-- `createChatSession()`: allocates a session object with a fresh empty
`messages` array under the generated id (passed in, as the JS id is built
from `Date.now()` and `Math.random()`), and returns the id. -/
def createChatSession (st : ChatManagerState) (newChatId : String) :
    ChatManagerState × String :=
  let (st1, r) := allocArr st []
  ({ st1 with chatSessions := mapSet st1.chatSessions newChatId r }, newChatId)

/-- `getChatHistory(chatId)`: returns `[...session.messages]` — a fresh copy
of the stored array — when the session exists, and a fresh empty array
otherwise.  The returned value is the reference of the fresh array. -/
def getChatHistory (st : ChatManagerState) (chatId : String) :
    ChatManagerState × Ref :=
  match alookup chatId st.chatSessions with
  | some r => allocArr st ((readArr st r).getD [])
  | none => allocArr st []

/-- `addMessageToHistory(chatId, message)`: when the session exists, pushes
`{...message, timestamp: new Date().toISOString()}` onto its stored
`messages` array in place; otherwise only warns and changes nothing.  The
timestamp string is passed in (the JS value is the current clock). -/
def addMessageToHistory (st : ChatManagerState) (chatId : String)
    (message : Message) (now : String) : ChatManagerState :=
  match alookup chatId st.chatSessions with
  | some r =>
      match readArr st r with
      | some msgs => writeArr st r (msgs ++ [{ msg := message, timestamp := now }])
      | none => st
  | none => st

/-- `getActiveChatId()`. -/
def getActiveChatId (st : ChatManagerState) : Option String :=
  st.activeChatId

/-- `setActiveChatId(chatId)`: sets the active id only when the session
exists; otherwise only warns and changes nothing. -/
def setActiveChatId (st : ChatManagerState) (chatId : String) : ChatManagerState :=
  if (alookup chatId st.chatSessions).isSome then
    { st with activeChatId := some chatId }
  else st

/-- `getAllChatSessionIds()`: the session ids in insertion order. -/
def getAllChatSessionIds (st : ChatManagerState) : List String :=
  st.chatSessions.map Prod.fst

/-- The observable history of a session: the list currently held by its
`messages` array, when the session exists. -/
def sessionMessages (st : ChatManagerState) (chatId : String) :
    Option (List StoredMessage) :=
  (alookup chatId st.chatSessions).bind (fun r => readArr st r)

/-- The empty state before the module body runs. -/
def initialChatManagerState : ChatManagerState :=
  { heap := [], chatSessions := [], activeChatId := none, nextRef := 0 }

/-- The module-load code of `chat_manager.js`: with the store empty, it
creates a default session (under the generated id) and sets it active. -/
def moduleInit (generatedId : String) : ChatManagerState :=
  let (st, defaultChatId) := createChatSession initialChatManagerState generatedId
  setActiveChatId st defaultChatId

/-- Well-formedness of a chat manager state: every session's array reference
is live (allocated below `nextRef` and present in the heap), heap keys are
below `nextRef`, session ids are unique (a JS `Map`), and distinct sessions
hold distinct array references (each session object was allocated
separately). -/
def ChatManagerState.WF (st : ChatManagerState) : Prop :=
  (∀ p ∈ st.chatSessions, p.2 < st.nextRef ∧ (alookup p.2 st.heap).isSome) ∧
  (∀ p ∈ st.heap, p.1 < st.nextRef) ∧
  (st.chatSessions.map Prod.fst).Nodup ∧
  (st.chatSessions.map Prod.snd).Nodup

instance (st : ChatManagerState) : Decidable st.WF := by
  unfold ChatManagerState.WF
  infer_instance

/-! ## Chat component (`src/modules/chat/chat.js`)

`handleSendMessage` trims the input, bails out on an empty query or a
missing active chat, appends the user message to the active history, reads
the history (`getChatHistory` — a copy) to send to `queryLLM`, and then,
depending on the outcome of `queryLLM`, appends either the assistant message
carrying the response's sources or a system-role error message.  The network
outcome is passed in as an `Except`, and the two timestamps drawn by the two
`addMessageToHistory` calls as explicit arguments.  DOM rendering is out of
scope; only the chat-manager state is tracked. -/

/-- The user message object built by `handleSendMessage`. -/
def userMessage (queryText : String) : Message :=
  { role := "user", content := queryText, type := "text", sources := none }

/-- The assistant message object built by `handleSendMessage` from a
successful query response. -/
def assistantMessage (resp : QueryResponse) : Message :=
  { role := "assistant", content := resp.llm_response, type := "text",
    sources := some resp.sources }

/-- The system error message object built by `handleSendMessage` from a
failed query. -/
def chatErrorMessage (emsg : String) : Message :=
  { role := "system", content := "Error: " ++ emsg ++ ". Please try again.",
    type := "text", sources := none }

/-- The chat-manager state transition of `handleSendMessage`.  `queryText`
is the trimmed input value (`messageInput.value.trim()` in the source; the
trim itself is string plumbing performed before any state is touched); the
JS guard `if (!queryText) return` is the emptiness test on it. -/
def handleSendMessage (st : ChatManagerState) (queryText : String)
    (result : Except String QueryResponse) (t1 t2 : String) : ChatManagerState :=
  if queryText = "" then st
  else
    match getActiveChatId st with
    | none => st
    | some activeChatId =>
        let st1 := addMessageToHistory st activeChatId (userMessage queryText) t1
        let (st2, _) := getChatHistory st1 activeChatId
        match result with
        | Except.ok resp =>
            addMessageToHistory st2 activeChatId (assistantMessage resp) t2
        | Except.error emsg =>
            addMessageToHistory st2 activeChatId (chatErrorMessage emsg) t2

/-! ## Association-list lemmas -/

theorem alookup_append {α β : Type} [DecidableEq α] (k : α)
    (l₁ l₂ : List (α × β)) :
    alookup k (l₁ ++ l₂) =
      match alookup k l₁ with
      | some v => some v
      | none => alookup k l₂ := by
  induction l₁ with
  | nil => simp [alookup]
  | cons p rest ih =>
      obtain ⟨a, b⟩ := p
      by_cases h : a = k <;> simp [alookup, h, ih]

theorem alookup_append_left {α β : Type} [DecidableEq α] {k : α}
    {l₁ : List (α × β)} (l₂ : List (α × β)) {v : β}
    (h : alookup k l₁ = some v) :
    alookup k (l₁ ++ l₂) = some v := by
  rw [alookup_append, h]

theorem alookup_append_right {α β : Type} [DecidableEq α] {k : α}
    {l₁ : List (α × β)} (l₂ : List (α × β))
    (h : alookup k l₁ = none) :
    alookup k (l₁ ++ l₂) = alookup k l₂ := by
  rw [alookup_append, h]

theorem alookup_not_mem {α β : Type} [DecidableEq α] {k : α}
    {l : List (α × β)} (h : ∀ p ∈ l, p.1 ≠ k) :
    alookup k l = none := by
  induction l with
  | nil => rfl
  | cons p rest ih =>
      obtain ⟨a, b⟩ := p
      have ha : a ≠ k := h (a, b) (List.mem_cons_self _ _)
      simp [alookup, ha]
      exact ih fun q hq => h q (List.mem_cons_of_mem _ hq)

theorem alookup_aupdate_self {α β : Type} [DecidableEq α] (k : α) (v : β)
    (l : List (α × β)) :
    alookup k (aupdate k v l) = (alookup k l).map (fun _ => v) := by
  induction l with
  | nil => rfl
  | cons p rest ih =>
      obtain ⟨a, b⟩ := p
      by_cases h : a = k <;> simp [alookup, aupdate, h, ih]

theorem alookup_aupdate_ne {α β : Type} [DecidableEq α] {k k2 : α} (v : β)
    (l : List (α × β)) (h : k2 ≠ k) :
    alookup k2 (aupdate k v l) = alookup k2 l := by
  induction l with
  | nil => rfl
  | cons p rest ih =>
      obtain ⟨a, b⟩ := p
      by_cases ha : a = k
      · subst ha
        simp [alookup, aupdate, Ne.symm h, ih]
      · by_cases ha2 : a = k2 <;> simp [alookup, aupdate, ha, ha2, h, ih]

theorem alookup_mem {α β : Type} [DecidableEq α] {k : α} {l : List (α × β)}
    {v : β} (h : alookup k l = some v) : (k, v) ∈ l := by
  induction l with
  | nil => simp [alookup] at h
  | cons p rest ih =>
      obtain ⟨a, b⟩ := p
      by_cases ha : a = k
      · subst ha
        simp [alookup] at h
        simp [h]
      · simp [alookup, ha] at h
        exact List.mem_cons_of_mem _ (ih h)

/-- With pairwise-distinct values, two entries holding the same value have
the same key. -/
theorem nodup_snd_key_eq {α β : Type} [DecidableEq α] [DecidableEq β]
    {l : List (α × β)} (hnd : (l.map Prod.snd).Nodup) {k1 k2 : α} {v : β}
    (h1 : (k1, v) ∈ l) (h2 : (k2, v) ∈ l) : k1 = k2 := by
  induction l with
  | nil => simp at h1
  | cons p rest ih =>
      obtain ⟨a, b⟩ := p
      simp only [List.map_cons, List.nodup_cons] at hnd
      rcases List.mem_cons.mp h1 with h1h | h1t
      · rcases List.mem_cons.mp h2 with h2h | h2t
        · exact (Prod.ext_iff.mp h1h).1.trans (Prod.ext_iff.mp h2h).1.symm
        · exfalso
          exact hnd.1 (List.mem_map.mpr
            ⟨(k2, v), h2t, (Prod.ext_iff.mp h1h).2⟩)
      · rcases List.mem_cons.mp h2 with h2h | h2t
        · exfalso
          exact hnd.1 (List.mem_map.mpr
            ⟨(k1, v), h1t, (Prod.ext_iff.mp h2h).2⟩)
        · exact ih hnd.2 h1t h2t

theorem alookup_eq_none_forall {α β : Type} [DecidableEq α] {k : α}
    {l : List (α × β)} (h : alookup k l = none) : ∀ p ∈ l, p.1 ≠ k := by
  induction l with
  | nil => simp
  | cons p rest ih =>
      obtain ⟨a, b⟩ := p
      by_cases ha : a = k
      · simp [alookup, ha] at h
      · simp [alookup, ha] at h
        intro q hq
        rcases List.mem_cons.mp hq with hqh | hqt
        · simpa [hqh] using ha
        · exact ih h q hqt

theorem aupdate_id {α β : Type} [DecidableEq α] {k : α} (v : β)
    {l : List (α × β)} (h : ∀ p ∈ l, p.1 ≠ k) : aupdate k v l = l := by
  induction l with
  | nil => rfl
  | cons p rest ih =>
      obtain ⟨a, b⟩ := p
      have ha : a ≠ k := h (a, b) (List.mem_cons_self _ _)
      simp [aupdate, ha]
      exact ih fun q hq => h q (List.mem_cons_of_mem _ hq)

theorem mem_aupdate {α β : Type} [DecidableEq α] {k : α} {v : β}
    {l : List (α × β)} {p : α × β} (h : p ∈ aupdate k v l) :
    p.2 = v ∨ p ∈ l := by
  induction l with
  | nil => simp [aupdate] at h
  | cons q rest ih =>
      obtain ⟨a, b⟩ := q
      by_cases ha : a = k
      · simp [aupdate, ha] at h
        rcases h with hh | ht
        · left; rw [hh]
        · rcases ih ht with hv | hm
          · left; exact hv
          · right; exact List.mem_cons_of_mem _ hm
      · simp [aupdate, ha] at h
        rcases h with hh | ht
        · right; rw [hh]; exact List.mem_cons_self _ _
        · rcases ih ht with hv | hm
          · left; exact hv
          · right; exact List.mem_cons_of_mem _ hm

theorem aupdate_map_fst {α β : Type} [DecidableEq α] (k : α) (v : β)
    (l : List (α × β)) : (aupdate k v l).map Prod.fst = l.map Prod.fst := by
  induction l with
  | nil => rfl
  | cons q rest ih =>
      obtain ⟨a, b⟩ := q
      by_cases ha : a = k <;> simp [aupdate, ha, ih]

theorem nodup_snd_aupdate {α β : Type} [DecidableEq α] [DecidableEq β]
    {k : α} {v : β} {l : List (α × β)}
    (hfst : (l.map Prod.fst).Nodup) (hnd : (l.map Prod.snd).Nodup)
    (hnew : ∀ p ∈ l, p.2 ≠ v) :
    ((aupdate k v l).map Prod.snd).Nodup := by
  induction l with
  | nil => simp [aupdate]
  | cons q rest ih =>
      obtain ⟨a, b⟩ := q
      simp only [List.map_cons, List.nodup_cons] at hfst hnd
      by_cases ha : a = k
      · subst ha
        have hrest : aupdate a v rest = rest := by
          apply aupdate_id
          intro p hp hpa
          exact hfst.1 (List.mem_map.mpr ⟨p, hp, hpa⟩)
        have hshape : aupdate a v ((a, b) :: rest) = (a, v) :: rest := by
          simp [aupdate, hrest]
        rw [hshape, List.map_cons, List.nodup_cons]
        refine ⟨fun hv => ?_, hnd.2⟩
        rcases List.mem_map.mp hv with ⟨p, hp, hpv⟩
        exact hnew p (List.mem_cons_of_mem _ hp) hpv
      · have hshape : aupdate k v ((a, b) :: rest) = (a, b) :: aupdate k v rest := by
          simp [aupdate, ha]
        rw [hshape, List.map_cons, List.nodup_cons]
        refine ⟨fun hb => ?_, ih hfst.2 hnd.2
          (fun p hp => hnew p (List.mem_cons_of_mem _ hp))⟩
        rcases List.mem_map.mp hb with ⟨p, hp, hpb⟩
        rcases mem_aupdate hp with hpv | hpm
        · exact hnew (a, b) (List.mem_cons_self _ _) (hpb ▸ hpv)
        · exact hnd.1 (List.mem_map.mpr ⟨p, hpm, hpb⟩)

/-! ## Heap-operation lemmas -/

theorem readArr_allocArr_fresh {st : ChatManagerState}
    (hk : ∀ p ∈ st.heap, p.1 < st.nextRef) (xs : List StoredMessage) :
    readArr (allocArr st xs).1 (allocArr st xs).2 = some xs := by
  unfold readArr allocArr
  simp only
  rw [alookup_append_right _ (alookup_not_mem
    (fun p hp => Nat.ne_of_lt (hk p hp)))]
  simp [alookup]

theorem readArr_allocArr_old {st : ChatManagerState} {r : Ref}
    (hr : r < st.nextRef) (xs : List StoredMessage) :
    readArr (allocArr st xs).1 r = readArr st r := by
  unfold readArr allocArr
  simp only
  rw [alookup_append]
  cases h : alookup r st.heap with
  | some v => rfl
  | none =>
      simp [alookup, Ne.symm (Nat.ne_of_lt hr)]

theorem allocArr_chatSessions (st : ChatManagerState) (xs : List StoredMessage) :
    (allocArr st xs).1.chatSessions = st.chatSessions := rfl

theorem allocArr_activeChatId (st : ChatManagerState) (xs : List StoredMessage) :
    (allocArr st xs).1.activeChatId = st.activeChatId := rfl

theorem sessionMessages_allocArr {st : ChatManagerState}
    (hs : ∀ p ∈ st.chatSessions, p.2 < st.nextRef)
    (xs : List StoredMessage) (chatId : String) :
    sessionMessages (allocArr st xs).1 chatId = sessionMessages st chatId := by
  unfold sessionMessages
  rw [allocArr_chatSessions]
  cases h : alookup chatId st.chatSessions with
  | none => rfl
  | some r =>
      exact readArr_allocArr_old (hs (chatId, r) (alookup_mem h)) xs

theorem WF_allocArr {st : ChatManagerState} (h : st.WF)
    (xs : List StoredMessage) : (allocArr st xs).1.WF := by
  obtain ⟨hsess, hheap, hfst, hsnd⟩ := h
  refine ⟨?_, ?_, hfst, hsnd⟩
  · intro p hp
    refine ⟨Nat.lt_succ_of_lt (hsess p hp).1, ?_⟩
    rcases Option.isSome_iff_exists.mp (hsess p hp).2 with ⟨v, hv⟩
    rw [show (allocArr st xs).1.heap = st.heap ++ [(st.nextRef, xs)] from rfl,
      alookup_append_left _ hv]
    rfl
  · intro p hp
    rw [show (allocArr st xs).1.heap = st.heap ++ [(st.nextRef, xs)] from rfl]
      at hp
    rcases List.mem_append.mp hp with hold | hnew
    · exact Nat.lt_succ_of_lt (hheap p hold)
    · simp at hnew
      rw [hnew]
      exact Nat.lt_succ_self _

theorem writeArr_chatSessions (st : ChatManagerState) (r : Ref)
    (xs : List StoredMessage) :
    (writeArr st r xs).chatSessions = st.chatSessions := rfl

theorem writeArr_activeChatId (st : ChatManagerState) (r : Ref)
    (xs : List StoredMessage) :
    (writeArr st r xs).activeChatId = st.activeChatId := rfl

theorem readArr_writeArr_self {st : ChatManagerState} {r : Ref}
    (xs : List StoredMessage) :
    readArr (writeArr st r xs) r = (readArr st r).map (fun _ => xs) := by
  unfold readArr writeArr
  exact alookup_aupdate_self r xs st.heap

theorem readArr_writeArr_ne {st : ChatManagerState} {r r2 : Ref}
    (xs : List StoredMessage) (h : r2 ≠ r) :
    readArr (writeArr st r xs) r2 = readArr st r2 := by
  unfold readArr writeArr
  exact alookup_aupdate_ne xs st.heap h

theorem WF_writeArr {st : ChatManagerState} (h : st.WF) (r : Ref)
    (xs : List StoredMessage) : (writeArr st r xs).WF := by
  obtain ⟨hsess, hheap, hfst, hsnd⟩ := h
  refine ⟨?_, ?_, hfst, hsnd⟩
  · intro p hp
    refine ⟨(hsess p hp).1, ?_⟩
    by_cases hr : p.2 = r
    · rw [show (writeArr st r xs).heap = aupdate r xs st.heap from rfl, hr,
        alookup_aupdate_self]
      rcases Option.isSome_iff_exists.mp (hsess p hp).2 with ⟨v, hv⟩
      rw [hr] at hv
      rw [hv]
      rfl
    · rw [show (writeArr st r xs).heap = aupdate r xs st.heap from rfl,
        alookup_aupdate_ne xs st.heap hr]
      exact (hsess p hp).2
  · intro p hp
    have hmem : p.1 ∈ (aupdate r xs st.heap).map Prod.fst :=
      List.mem_map.mpr ⟨p, hp, rfl⟩
    rw [aupdate_map_fst] at hmem
    rcases List.mem_map.mp hmem with ⟨q, hq, hq1⟩
    rw [← hq1]
    exact hheap q hq

theorem addMessage_chatSessions (st : ChatManagerState) (chatId : String)
    (m : Message) (now : String) :
    (addMessageToHistory st chatId m now).chatSessions = st.chatSessions := by
  unfold addMessageToHistory
  split
  · split
    · rfl
    · rfl
  · rfl

theorem addMessage_activeChatId (st : ChatManagerState) (chatId : String)
    (m : Message) (now : String) :
    (addMessageToHistory st chatId m now).activeChatId = st.activeChatId := by
  unfold addMessageToHistory
  split
  · split
    · rfl
    · rfl
  · rfl

theorem addMessage_nextRef (st : ChatManagerState) (chatId : String)
    (m : Message) (now : String) :
    (addMessageToHistory st chatId m now).nextRef = st.nextRef := by
  unfold addMessageToHistory
  split
  · split
    · rfl
    · rfl
  · rfl

theorem addMessage_missing {st : ChatManagerState} {chatId : String}
    (h : alookup chatId st.chatSessions = none) (m : Message) (now : String) :
    addMessageToHistory st chatId m now = st := by
  unfold addMessageToHistory
  rw [h]

theorem sessionMessages_addMessage_self {st : ChatManagerState}
    {chatId : String} {msgs : List StoredMessage}
    (hm : sessionMessages st chatId = some msgs) (m : Message) (now : String) :
    sessionMessages (addMessageToHistory st chatId m now) chatId =
      some (msgs ++ [{ msg := m, timestamp := now }]) := by
  unfold sessionMessages at hm
  cases hsess : alookup chatId st.chatSessions with
  | none => rw [hsess] at hm; simp at hm
  | some r =>
      rw [hsess] at hm
      rw [Option.some_bind'] at hm
      have hstep : addMessageToHistory st chatId m now =
          writeArr st r (msgs ++ [{ msg := m, timestamp := now }]) := by
        unfold addMessageToHistory
        rw [hsess]
        simp only [hm]
      rw [hstep]
      unfold sessionMessages
      rw [writeArr_chatSessions, hsess, Option.some_bind',
        readArr_writeArr_self, hm]
      rfl

theorem sessionMessages_addMessage_ne {st : ChatManagerState} (hwf : st.WF)
    {chatId id2 : String} (hne : id2 ≠ chatId) (m : Message) (now : String) :
    sessionMessages (addMessageToHistory st chatId m now) id2 =
      sessionMessages st id2 := by
  obtain ⟨hsess, hheap, hfst, hsnd⟩ := hwf
  cases hc : alookup chatId st.chatSessions with
  | none => rw [addMessage_missing hc]
  | some r =>
      cases hr : readArr st r with
      | none =>
          have hstep : addMessageToHistory st chatId m now = st := by
            unfold addMessageToHistory
            rw [hc]
            simp only [hr]
          rw [hstep]
      | some msgs =>
          have hstep : addMessageToHistory st chatId m now =
              writeArr st r (msgs ++ [{ msg := m, timestamp := now }]) := by
            unfold addMessageToHistory
            rw [hc]
            simp only [hr]
          rw [hstep]
          unfold sessionMessages
          rw [writeArr_chatSessions]
          cases h2 : alookup id2 st.chatSessions with
          | none => rfl
          | some r2 =>
              rw [Option.some_bind', Option.some_bind']
              have hr2 : r2 ≠ r := by
                intro he
                subst he
                exact hne (nodup_snd_key_eq hsnd (alookup_mem h2) (alookup_mem hc))
              exact readArr_writeArr_ne _ hr2

theorem WF_addMessage {st : ChatManagerState} (hwf : st.WF)
    (chatId : String) (m : Message) (now : String) :
    (addMessageToHistory st chatId m now).WF := by
  unfold addMessageToHistory
  split
  · split
    · exact WF_writeArr hwf _ _
    · exact hwf
  · exact hwf

theorem getChatHistory_chatSessions (st : ChatManagerState) (chatId : String) :
    (getChatHistory st chatId).1.chatSessions = st.chatSessions := by
  unfold getChatHistory
  split
  · rfl
  · rfl

theorem getChatHistory_activeChatId (st : ChatManagerState) (chatId : String) :
    (getChatHistory st chatId).1.activeChatId = st.activeChatId := by
  unfold getChatHistory
  split
  · rfl
  · rfl

theorem WF_getChatHistory {st : ChatManagerState} (hwf : st.WF)
    (chatId : String) : (getChatHistory st chatId).1.WF := by
  unfold getChatHistory
  split
  · exact WF_allocArr hwf _
  · exact WF_allocArr hwf _

theorem sessionMessages_getChatHistory {st : ChatManagerState} (hwf : st.WF)
    (chatId id2 : String) :
    sessionMessages (getChatHistory st chatId).1 id2 = sessionMessages st id2 := by
  unfold getChatHistory
  split
  · exact sessionMessages_allocArr (fun p hp => (hwf.1 p hp).1) _ id2
  · exact sessionMessages_allocArr (fun p hp => (hwf.1 p hp).1) _ id2

theorem getChatHistory_reads {st : ChatManagerState} (hwf : st.WF)
    (chatId : String) :
    readArr (getChatHistory st chatId).1 (getChatHistory st chatId).2 =
      some ((sessionMessages st chatId).getD []) := by
  unfold getChatHistory sessionMessages
  cases hc : alookup chatId st.chatSessions with
  | none =>
      simp only
      rw [readArr_allocArr_fresh hwf.2.1]
      rfl
  | some r =>
      simp only [Option.some_bind']
      rw [readArr_allocArr_fresh hwf.2.1]

theorem getChatHistory_fresh {st : ChatManagerState}
    (chatId : String) :
    (getChatHistory st chatId).2 = st.nextRef := by
  unfold getChatHistory
  split
  · rfl
  · rfl

theorem mem_aupdate_strong {α β : Type} [DecidableEq α] {k : α} {v : β}
    {l : List (α × β)} {p : α × β} (h : p ∈ aupdate k v l) :
    (p.1 = k ∧ p.2 = v) ∨ (p ∈ l ∧ p.1 ≠ k) := by
  induction l with
  | nil => simp [aupdate] at h
  | cons q rest ih =>
      obtain ⟨a, b⟩ := q
      by_cases ha : a = k
      · subst ha
        simp only [aupdate, if_pos rfl] at h
        rcases List.mem_cons.mp h with hh | ht
        · left
          rw [hh]
          exact ⟨rfl, rfl⟩
        · rcases ih ht with hl | hr
          · left; exact hl
          · right; exact ⟨List.mem_cons_of_mem _ hr.1, hr.2⟩
      · simp only [aupdate, if_neg ha] at h
        rcases List.mem_cons.mp h with hh | ht
        · right
          rw [hh]
          exact ⟨List.mem_cons_self _ _, ha⟩
        · rcases ih ht with hl | hr
          · left; exact hl
          · right; exact ⟨List.mem_cons_of_mem _ hr.1, hr.2⟩

theorem mem_mapSet {m : List (String × Ref)} {k : String} {v : Ref}
    {p : String × Ref} (h : p ∈ mapSet m k v) :
    p = (k, v) ∨ (p ∈ m ∧ p.1 ≠ k) := by
  unfold mapSet at h
  by_cases hs : (alookup k m).isSome
  · rw [if_pos hs] at h
    rcases mem_aupdate_strong h with ⟨h1, h2⟩ | hr
    · left
      obtain ⟨p1, p2⟩ := p
      simp only at h1 h2
      rw [h1, h2]
    · right; exact hr
  · rw [if_neg hs] at h
    rcases List.mem_append.mp h with hm | hone
    · right
      refine ⟨hm, ?_⟩
      have hnone : alookup k m = none := by
        cases hl : alookup k m with
        | none => rfl
        | some v2 => rw [hl] at hs; simp at hs
      exact alookup_eq_none_forall hnone p hm
    · left; simpa using hone

theorem alookup_mapSet_self (m : List (String × Ref)) (k : String) (v : Ref) :
    alookup k (mapSet m k v) = some v := by
  unfold mapSet
  by_cases hs : (alookup k m).isSome
  · rw [if_pos hs, alookup_aupdate_self]
    rcases Option.isSome_iff_exists.mp hs with ⟨v2, hv⟩
    rw [hv]
    rfl
  · rw [if_neg hs]
    have hnone : alookup k m = none := by
      cases hl : alookup k m with
      | none => rfl
      | some v2 => rw [hl] at hs; simp at hs
    rw [alookup_append_right _ hnone]
    simp [alookup]

theorem alookup_mapSet_ne (m : List (String × Ref)) {k id2 : String} (v : Ref)
    (h : id2 ≠ k) : alookup id2 (mapSet m k v) = alookup id2 m := by
  unfold mapSet
  by_cases hs : (alookup k m).isSome
  · rw [if_pos hs]
    exact alookup_aupdate_ne v m h
  · rw [if_neg hs, alookup_append]
    cases hl : alookup id2 m with
    | some v2 => rfl
    | none => simp [alookup, Ne.symm h]

theorem nodup_fst_mapSet {m : List (String × Ref)} (k : String) (v : Ref)
    (hfst : (m.map Prod.fst).Nodup) :
    ((mapSet m k v).map Prod.fst).Nodup := by
  unfold mapSet
  by_cases hs : (alookup k m).isSome
  · rw [if_pos hs, aupdate_map_fst]
    exact hfst
  · rw [if_neg hs]
    have hnone : alookup k m = none := by
      cases hl : alookup k m with
      | none => rfl
      | some v2 => rw [hl] at hs; simp at hs
    rw [List.map_append]
    apply List.Nodup.append hfst (by simp)
    intro a ha hb
    simp at hb
    rcases List.mem_map.mp ha with ⟨p, hp, hp1⟩
    exact alookup_eq_none_forall hnone p hp (hp1.trans hb)

theorem nodup_snd_mapSet {m : List (String × Ref)} {k : String} {v : Ref}
    (hfst : (m.map Prod.fst).Nodup) (hsnd : (m.map Prod.snd).Nodup)
    (hnew : ∀ p ∈ m, p.2 ≠ v) :
    ((mapSet m k v).map Prod.snd).Nodup := by
  unfold mapSet
  by_cases hs : (alookup k m).isSome
  · rw [if_pos hs]
    exact nodup_snd_aupdate hfst hsnd hnew
  · rw [if_neg hs, List.map_append]
    apply List.Nodup.append hsnd (by simp)
    intro a ha hb
    simp at hb
    rcases List.mem_map.mp ha with ⟨p, hp, hp1⟩
    exact hnew p hp (hp1.trans hb)

theorem createChatSession_activeChatId (st : ChatManagerState) (id : String) :
    (createChatSession st id).1.activeChatId = st.activeChatId := rfl

theorem createChatSession_heap (st : ChatManagerState) (id : String) :
    (createChatSession st id).1.heap = st.heap ++ [(st.nextRef, [])] := rfl

theorem createChatSession_chatSessions (st : ChatManagerState) (id : String) :
    (createChatSession st id).1.chatSessions =
      mapSet st.chatSessions id st.nextRef := rfl

theorem WF_createChatSession {st : ChatManagerState} (hwf : st.WF)
    (id : String) : (createChatSession st id).1.WF := by
  have hwf1 := WF_allocArr hwf ([] : List StoredMessage)
  obtain ⟨hsess1, hheap1, hfst1, hsnd1⟩ := hwf1
  refine ⟨?_, ?_, ?_, ?_⟩
  · intro p hp
    rw [createChatSession_chatSessions] at hp
    rcases mem_mapSet hp with hnew | ⟨hm, _⟩
    · subst hnew
      refine ⟨Nat.lt_succ_self _, ?_⟩
      rw [createChatSession_heap]
      have : alookup st.nextRef (st.heap ++ [(st.nextRef, [])]) = some [] := by
        rw [alookup_append_right _ (alookup_not_mem
          (fun q hq => Nat.ne_of_lt (hwf.2.1 q hq)))]
        simp [alookup]
      simp only
      rw [this]
      rfl
    · exact hsess1 p hm
  · exact hheap1
  · rw [createChatSession_chatSessions]
    exact nodup_fst_mapSet id st.nextRef hwf.2.2.1
  · rw [createChatSession_chatSessions]
    exact nodup_snd_mapSet hwf.2.2.1 hwf.2.2.2
      (fun p hp => Nat.ne_of_lt (hwf.1 p hp).1)

theorem createChatSession_preserves_lookup {st : ChatManagerState}
    {id2 : String} (h : (alookup id2 st.chatSessions).isSome) (id : String) :
    (alookup id2 (createChatSession st id).1.chatSessions).isSome := by
  rw [createChatSession_chatSessions]
  by_cases he : id2 = id
  · subst he
    rw [alookup_mapSet_self]
    rfl
  · rw [alookup_mapSet_ne _ _ he]
    exact h

theorem setActiveChatId_chatSessions (st : ChatManagerState) (id : String) :
    (setActiveChatId st id).chatSessions = st.chatSessions := by
  unfold setActiveChatId
  split
  · rfl
  · rfl

theorem setActiveChatId_heap (st : ChatManagerState) (id : String) :
    (setActiveChatId st id).heap = st.heap := by
  unfold setActiveChatId
  split
  · rfl
  · rfl

theorem WF_setActiveChatId {st : ChatManagerState} (hwf : st.WF)
    (id : String) : (setActiveChatId st id).WF := by
  unfold setActiveChatId
  split
  · exact hwf
  · exact hwf

theorem setActiveChatId_missing {st : ChatManagerState} {id : String}
    (h : alookup id st.chatSessions = none) : setActiveChatId st id = st := by
  unfold setActiveChatId
  rw [if_neg (by rw [h]; simp)]

/-- The reachable-state invariant about the active id: whenever an id is
active, a session with that id is present in the store. -/
def ActiveValid (st : ChatManagerState) : Prop :=
  ∀ id, st.activeChatId = some id → (alookup id st.chatSessions).isSome

/-- States of the chat manager reachable from module initialization by the
exported operations (`getActiveChatId` and `getAllChatSessionIds` do not
change the state and need no step). -/
inductive Reachable : ChatManagerState → Prop where
  | init (generatedId : String) : Reachable (moduleInit generatedId)
  | createSession (st : ChatManagerState) (newChatId : String) :
      Reachable st → Reachable (createChatSession st newChatId).1
  | setActive (st : ChatManagerState) (chatId : String) :
      Reachable st → Reachable (setActiveChatId st chatId)
  | addMessage (st : ChatManagerState) (chatId : String) (m : Message)
      (now : String) :
      Reachable st → Reachable (addMessageToHistory st chatId m now)
  | getHistory (st : ChatManagerState) (chatId : String) :
      Reachable st → Reachable (getChatHistory st chatId).1

theorem moduleInit_eq (generatedId : String) :
    moduleInit generatedId =
      { heap := [(0, [])], chatSessions := [(generatedId, 0)],
        activeChatId := some generatedId, nextRef := 1 } := by
  unfold moduleInit createChatSession initialChatManagerState allocArr
    setActiveChatId mapSet
  simp [alookup]

theorem reachable_WF_activeValid {st : ChatManagerState}
    (h : Reachable st) : st.WF ∧ ActiveValid st := by
  induction h with
  | init generatedId =>
      rw [moduleInit_eq]
      constructor
      · refine ⟨?_, ?_, ?_, ?_⟩ <;> simp [alookup]
      · intro id hid
        simp only [Option.some.injEq] at hid
        subst hid
        simp [alookup]
  | createSession st newChatId _ ih =>
      refine ⟨WF_createChatSession ih.1 newChatId, ?_⟩
      intro id hid
      rw [createChatSession_activeChatId] at hid
      exact createChatSession_preserves_lookup (ih.2 id hid) newChatId
  | setActive st chatId _ ih =>
      refine ⟨WF_setActiveChatId ih.1 chatId, ?_⟩
      intro id hid
      rw [setActiveChatId_chatSessions]
      unfold setActiveChatId at hid
      by_cases hc : (alookup chatId st.chatSessions).isSome
      · rw [if_pos hc] at hid
        simp only [Option.some.injEq] at hid
        subst hid
        exact hc
      · rw [if_neg hc] at hid
        exact ih.2 id hid
  | addMessage st chatId m now _ ih =>
      refine ⟨WF_addMessage ih.1 chatId m now, ?_⟩
      intro id hid
      rw [addMessage_activeChatId] at hid
      rw [addMessage_chatSessions]
      exact ih.2 id hid
  | getHistory st chatId _ ih =>
      refine ⟨WF_getChatHistory ih.1 chatId, ?_⟩
      intro id hid
      rw [getChatHistory_activeChatId] at hid
      rw [getChatHistory_chatSessions]
      exact ih.2 id hid

/-! ## Claim theorems: backend schemas -/

/-- Specification predicate for the `score` field of `Source`: absent or
`null` input leaves the default `None`; numeric input is stored (integers
coerced to float); any other input is rejected. -/
def scoreFieldSpec : Option JVal → Option Rat → Prop
  | none, sc => sc = none
  | some JVal.jnull, sc => sc = none
  | some (JVal.jint n), sc => sc = some (n : Rat)
  | some (JVal.jnum q), sc => sc = some q
  | some (JVal.jbool _), _ => False
  | some (JVal.jstr _), _ => False
  | some (JVal.jarr _), _ => False
  | some (JVal.jobj _), _ => False

/-- C1 (counterexample): the backend request model does not admit a
`chat_history` field.  A body carrying `chat_history` validates to exactly
the same model value as the body without it — the field is discarded, not
represented — and `chat_history` is not among the model's declared
fields. -/
theorem queryRequest_chat_history_not_modelled :
    QueryRequest.validate
        [("query_text", JVal.jstr "hi"), ("chat_history", JVal.jarr [])] =
      QueryRequest.validate [("query_text", JVal.jstr "hi")]
    ∧ QueryRequest.validate
        [("query_text", JVal.jstr "hi"), ("chat_history", JVal.jarr [])] =
      some { query_text := "hi" }
    ∧ "chat_history" ∉ QueryRequest.fieldNames := by
  refine ⟨by decide, by decide, by decide⟩

/-- C1 (amended): a body is accepted by the backend request model exactly
when its `query_text` field is a string of length at least one; the value of
the model is that string alone.  In particular a `chat_history` field is
neither required nor rejected nor retained: validation is insensitive to
it. -/
theorem queryRequest_validate_spec (o : JObj) (r : QueryRequest) :
    QueryRequest.validate o = some r ↔
      (jlookup o "query_text" = some (JVal.jstr r.query_text) ∧
       1 ≤ r.query_text.length) := by
  unfold QueryRequest.validate
  constructor
  · intro h
    split at h
    next s hs =>
      by_cases hlen : 1 ≤ s.length
      · rw [if_pos hlen] at h
        cases h
        exact ⟨hs, hlen⟩
      · rw [if_neg hlen] at h
        exact absurd h (by simp)
    next => exact absurd h (by simp)
  · rintro ⟨h1, h2⟩
    simp only [h1]
    rw [if_pos h2]

/-- C1 (witness for the amended claim): a concrete accepted body. -/
theorem queryRequest_validate_spec_witness :
    QueryRequest.validate [("query_text", JVal.jstr "q")] =
      some { query_text := "q" } :=
  (queryRequest_validate_spec _ _).mpr ⟨rfl, by decide⟩

/-- C3 (counterexample): a `Source` object with no `score` field at all is
well-formed — it validates successfully, with `score = None`.  So a
well-formed query response may contain a source whose score is absent. -/
theorem source_score_may_be_absent :
    Source.validate
        [("document_name", JVal.jstr "d"), ("chunk_id", JVal.jint 0),
         ("text_preview", JVal.jstr "t")] =
      some { document_name := "d", chunk_id := 0, text_preview := "t",
             score := none } := by
  decide

/-- C3 (amended): every validated `Source` carries the three required fields
`document_name`, `chunk_id` and `text_preview` taken from the body, while
`score` is optional: it is `None` when the field is absent or `null`, and
the field's numeric value otherwise. -/
theorem source_validate_spec (o : JObj) (r : Source) :
    Source.validate o = some r ↔
      (jlookup o "document_name" = some (JVal.jstr r.document_name) ∧
       jlookup o "chunk_id" = some (JVal.jint r.chunk_id) ∧
       jlookup o "text_preview" = some (JVal.jstr r.text_preview) ∧
       scoreFieldSpec (jlookup o "score") r.score) := by
  unfold Source.validate
  constructor
  · intro h
    split at h
    next dn cid tp h1 h2 h3 =>
      split at h
      next hsc =>
        cases h
        exact ⟨h1, h2, h3, by rw [hsc]; rfl⟩
      next hsc =>
        cases h
        exact ⟨h1, h2, h3, by rw [hsc]; rfl⟩
      next n hsc =>
        cases h
        exact ⟨h1, h2, h3, by rw [hsc]; rfl⟩
      next q hsc =>
        cases h
        exact ⟨h1, h2, h3, by rw [hsc]; rfl⟩
      next hsc =>
        exact absurd h (by simp)
    next => exact absurd h (by simp)
  · rintro ⟨h1, h2, h3, h4⟩
    obtain ⟨rdn, rcid, rtp, rsc⟩ := r
    simp only [h1, h2, h3]
    cases hsc : jlookup o "score" with
    | none =>
        rw [hsc] at h4
        have h5 : rsc = none := h4
        subst h5
        rfl
    | some v =>
        rw [hsc] at h4
        cases v with
        | jnull =>
            have h5 : rsc = none := h4
            subst h5
            rfl
        | jint n =>
            have h5 : rsc = some (n : Rat) := h4
            subst h5
            rfl
        | jnum q =>
            have h5 : rsc = some q := h4
            subst h5
            rfl
        | jbool b => exact h4.elim
        | jstr s => exact h4.elim
        | jarr xs => exact h4.elim
        | jobj fs => exact h4.elim

/-- C3 (witness for the amended claim): a concrete source body with a
numeric score validates to a source carrying that score. -/
theorem source_validate_spec_witness :
    Source.validate
        [("document_name", JVal.jstr "d"), ("chunk_id", JVal.jint 1),
         ("text_preview", JVal.jstr "t"), ("score", JVal.jnum (1/2))] =
      some { document_name := "d", chunk_id := 1, text_preview := "t",
             score := some (1/2) } :=
  (source_validate_spec _ _).mpr ⟨rfl, rfl, rfl, rfl⟩

/-- C7: a body validates against `UploadResponse` exactly when it carries
all four fields `filename` (string), `message` (string), `chunks_added`
(integer) and `total_vectors_in_store` (integer); each of the four is
required (validation fails whenever one is missing or mistyped) and no
further field is required. -/
theorem uploadResponse_validate_spec (o : JObj) (r : UploadResponse) :
    UploadResponse.validate o = some r ↔
      (jlookup o "filename" = some (JVal.jstr r.filename) ∧
       jlookup o "message" = some (JVal.jstr r.message) ∧
       jlookup o "chunks_added" = some (JVal.jint r.chunks_added) ∧
       jlookup o "total_vectors_in_store" =
         some (JVal.jint r.total_vectors_in_store)) := by
  unfold UploadResponse.validate
  constructor
  · intro h
    split at h
    next fn msg ca tv h1 h2 h3 h4 =>
      cases h
      exact ⟨h1, h2, h3, h4⟩
    next => exact absurd h (by simp)
  · rintro ⟨h1, h2, h3, h4⟩
    simp only [h1, h2, h3, h4]

/-- C7 (witness): a concrete upload response body validates. -/
theorem uploadResponse_validate_spec_witness :
    UploadResponse.validate
        [("filename", JVal.jstr "a.pdf"), ("message", JVal.jstr "ok"),
         ("chunks_added", JVal.jint 3),
         ("total_vectors_in_store", JVal.jint 7)] =
      some { filename := "a.pdf", message := "ok", chunks_added := 3,
             total_vectors_in_store := 7 } :=
  (uploadResponse_validate_spec _ _).mpr ⟨rfl, rfl, rfl, rfl⟩

/-! ## Claim theorems: API client -/

/-- C2: the `chat_history` sent by `queryLLM` is the input history projected
element-wise to `{role, content}` in its original order (it is the
length-`n` prefix and agrees index by index), followed by exactly one
appended element `{role: 'user', content: queryText}`, which is also the
final message; `query_text` is the current query.  The input list itself is
left untouched: the projection builds a fresh array (`map`) and only that
fresh array is pushed to. -/
theorem queryLLM_sends_history_then_user (queryText : String)
    (chatHistory : List Message) :
    (queryLLM.body queryText chatHistory).chat_history.length
        = chatHistory.length + 1
    ∧ (∀ i, ∀ hi : i < chatHistory.length,
        (queryLLM.body queryText chatHistory).chat_history[i]? =
          some (projectMsg (chatHistory.get ⟨i, hi⟩)))
    ∧ (queryLLM.body queryText chatHistory).chat_history[chatHistory.length]? =
        some { role := "user", content := queryText }
    ∧ (queryLLM.body queryText chatHistory).chat_history.getLast? =
        some { role := "user", content := queryText }
    ∧ (queryLLM.body queryText chatHistory).chat_history.take chatHistory.length
        = chatHistory.map projectMsg
    ∧ (queryLLM.body queryText chatHistory).query_text = queryText := by
  refine ⟨by simp [queryLLM.body], ?_, ?_, by simp [queryLLM.body], ?_, rfl⟩
  · intro i hi
    show ((chatHistory.map projectMsg) ++
        [({ role := "user", content := queryText } : ChatMsg)])[i]? = _
    rw [List.getElem?_append_left (by simpa using hi), List.getElem?_map,
      List.getElem?_eq_getElem (by simpa using hi)]
    rfl
  · show ((chatHistory.map projectMsg) ++
        [({ role := "user", content := queryText } : ChatMsg)])[chatHistory.length]?
      = _
    rw [List.getElem?_append_right (by simp)]
    simp
  · show ((chatHistory.map projectMsg) ++
        [({ role := "user", content := queryText } : ChatMsg)]).take
        chatHistory.length = _
    have h := List.take_left (chatHistory.map projectMsg)
      [({ role := "user", content := queryText } : ChatMsg)]
    rwa [List.length_map] at h

/-- C2 (witness): on a concrete one-message history, position 0 of the sent
sequence is the projected history element and the final position is the
current user query. -/
theorem queryLLM_sends_history_then_user_witness :
    (queryLLM.body "hello"
        [{ role := "assistant", content := "prev", type := "text",
           sources := none }]).chat_history[0]? =
      some (projectMsg ({ role := "assistant",
                          content := "prev",
                          type := "text",
                          sources := none } : Message))
    ∧ (queryLLM.body "hello"
        [{ role := "assistant", content := "prev", type := "text",
           sources := none }]).chat_history.getLast? =
      some { role := "user", content := "hello" } :=
  ⟨(queryLLM_sends_history_then_user "hello"
      [{ role := "assistant", content := "prev", type := "text",
         sources := none }]).2.1 0 (by decide),
   (queryLLM_sends_history_then_user "hello"
      [{ role := "assistant", content := "prev", type := "text",
         sources := none }]).2.2.2.1⟩

/-- C4 (counterexample): with the `detail` field present but equal to the
empty string, both handlers reject with the fixed fallback message, not with
the (empty) detail string — JS `||` takes the fallback on a falsy detail,
while the claim demands the detail string whenever the field is present. -/
theorem empty_detail_uses_fallback :
    uploadFile.result { ok := false, body := [("detail", JVal.jstr "")] } =
      Except.error (JVal.jstr "File upload failed")
    ∧ queryLLM.result { ok := false, body := [("detail", JVal.jstr "")] } =
      Except.error (JVal.jstr "LLM query failed")
    ∧ ("File upload failed" ≠ "" ∧ "LLM query failed" ≠ "") := by
  exact ⟨rfl, rfl, by decide, by decide⟩

/-- C4 (amended): on every non-2xx response, `uploadFile` and `queryLLM`
never resolve successfully; they reject with an error built from
`errorData.detail || fallback`.  When `detail` is present as a non-empty
string, the error's message is exactly that string; when `detail` is absent
or falsy (`null`, `false`, `0`, or the empty string), the error carries the
fixed fallback message (`'File upload failed'` / `'LLM query failed'`); any
other truthy `detail` value is handed to the `Error` constructor verbatim
(its message is then that value's JS stringification). -/
theorem nonOk_response_rejects (resp : HttpResponse) (h : resp.ok = false) :
    (∀ v, uploadFile.result resp ≠ Except.ok v)
    ∧ (∀ v, queryLLM.result resp ≠ Except.ok v)
    ∧ (∀ s, s ≠ "" → jlookup resp.body "detail" = some (JVal.jstr s) →
        uploadFile.result resp = Except.error (JVal.jstr s) ∧
        queryLLM.result resp = Except.error (JVal.jstr s))
    ∧ (jlookup resp.body "detail" = none →
        uploadFile.result resp = Except.error (JVal.jstr "File upload failed") ∧
        queryLLM.result resp = Except.error (JVal.jstr "LLM query failed"))
    ∧ (∀ v, jlookup resp.body "detail" = some v → v.truthy = false →
        uploadFile.result resp = Except.error (JVal.jstr "File upload failed") ∧
        queryLLM.result resp = Except.error (JVal.jstr "LLM query failed"))
    ∧ (∀ v, jlookup resp.body "detail" = some v → v.truthy = true →
        uploadFile.result resp = Except.error v ∧
        queryLLM.result resp = Except.error v) := by
  unfold uploadFile.result queryLLM.result
  rw [h]
  simp only [Bool.false_eq_true, if_false]
  refine ⟨by simp, by simp, ?_, ?_, ?_, ?_⟩
  · intro s hs hd
    unfold detailOrFallback
    have ht : (JVal.jstr s).truthy = true := by
      simp [JVal.truthy, hs]
    constructor
    · simp only [hd, ht, if_true]
    · simp only [hd, ht, if_true]
  · intro hnone
    unfold detailOrFallback
    constructor
    · simp only [hnone]
    · simp only [hnone]
  · intro v hd ht
    unfold detailOrFallback
    constructor
    · simp only [hd, ht, Bool.false_eq_true, if_false]
    · simp only [hd, ht, Bool.false_eq_true, if_false]
  · intro v hd ht
    unfold detailOrFallback
    constructor
    · simp only [hd, ht, if_true]
    · simp only [hd, ht, if_true]

/-- C4 (witness): a concrete non-2xx response with a non-empty detail string
is rejected with exactly that string. -/
theorem nonOk_response_rejects_witness :
    uploadFile.result { ok := false, body := [("detail", JVal.jstr "boom")] } =
      Except.error (JVal.jstr "boom")
    ∧ queryLLM.result { ok := false, body := [("detail", JVal.jstr "boom")] } =
      Except.error (JVal.jstr "boom") :=
  (nonOk_response_rejects
      { ok := false, body := [("detail", JVal.jstr "boom")] } rfl).2.2.1
    "boom" (by decide) rfl

/-- C6: for every base URL and file, the request built by `uploadFile` is a
POST to `/api/v1/upload` whose multipart form holds exactly one field, named
`file`, carrying that file. -/
theorem uploadFile_request_spec (ragServiceUrl : String) (file : FileObj) :
    (uploadFile.request ragServiceUrl file).method = "POST"
    ∧ (uploadFile.request ragServiceUrl file).url =
        ragServiceUrl ++ "/api/v1/upload"
    ∧ (uploadFile.request ragServiceUrl file).formData = [("file", file)]
    ∧ (uploadFile.request ragServiceUrl file).formData.length = 1 := by
  refine ⟨rfl, ?_, rfl, rfl⟩
  show ragServiceUrl ++ "/api/" ++ API_VERSION ++ "/upload" =
    ragServiceUrl ++ "/api/v1/upload"
  unfold API_VERSION
  rw [String.append_assoc, String.append_assoc]
  congr 1

/-! ## Claim theorems: chat manager and chat component -/

/-- C8: `getChatHistory` hands back an array holding the session's stored
history (or the empty list when no such session exists), and that array is a
fresh copy: overwriting it with any list afterwards leaves the observable
history of every session exactly as it was before the call. -/
theorem getChatHistory_returns_copy (st : ChatManagerState) (chatId : String)
    (hwf : st.WF) :
    readArr (getChatHistory st chatId).1 (getChatHistory st chatId).2 =
      some ((sessionMessages st chatId).getD [])
    ∧ ∀ xs id2,
        sessionMessages
            (writeArr (getChatHistory st chatId).1
              (getChatHistory st chatId).2 xs) id2 =
          sessionMessages st id2 := by
  refine ⟨getChatHistory_reads hwf chatId, ?_⟩
  intro xs id2
  unfold sessionMessages
  rw [writeArr_chatSessions, getChatHistory_chatSessions]
  cases h2 : alookup id2 st.chatSessions with
  | none => rfl
  | some r2 =>
      rw [Option.some_bind', Option.some_bind']
      have hr2lt : r2 < st.nextRef := (hwf.1 (id2, r2) (alookup_mem h2)).1
      rw [getChatHistory_fresh, readArr_writeArr_ne xs (Nat.ne_of_lt hr2lt)]
      have hpres := sessionMessages_getChatHistory hwf chatId id2
      unfold sessionMessages at hpres
      rw [getChatHistory_chatSessions, h2] at hpres
      exact hpres

/-- C8 (witness): on the initial state, the copy holds the stored (empty)
history and mutating it does not change the stored history. -/
theorem getChatHistory_returns_copy_witness :
    readArr (getChatHistory (moduleInit "c0") "c0").1
        (getChatHistory (moduleInit "c0") "c0").2 =
      some ((sessionMessages (moduleInit "c0") "c0").getD [])
    ∧ sessionMessages
        (writeArr (getChatHistory (moduleInit "c0") "c0").1
          (getChatHistory (moduleInit "c0") "c0").2
          [{ msg := userMessage "x", timestamp := "t" }]) "c0" =
      sessionMessages (moduleInit "c0") "c0" :=
  ⟨(getChatHistory_returns_copy (moduleInit "c0") "c0" (by decide)).1,
   (getChatHistory_returns_copy (moduleInit "c0") "c0" (by decide)).2
     [{ msg := userMessage "x", timestamp := "t" }] "c0"⟩

/-- C9: `addMessageToHistory` appends exactly one element — the input
message extended with a timestamp — to the addressed session's history when
that session exists, is a no-op on the whole state when it does not, and in
either case leaves every other session's history, the set of session ids,
and the active id unchanged. -/
theorem addMessageToHistory_spec (st : ChatManagerState) (chatId : String)
    (message : Message) (now : String) (hwf : st.WF) :
    (addMessageToHistory st chatId message now).chatSessions = st.chatSessions
    ∧ (addMessageToHistory st chatId message now).activeChatId =
        st.activeChatId
    ∧ (∀ msgs, sessionMessages st chatId = some msgs →
        sessionMessages (addMessageToHistory st chatId message now) chatId =
          some (msgs ++ [{ msg := message, timestamp := now }]))
    ∧ (alookup chatId st.chatSessions = none →
        addMessageToHistory st chatId message now = st)
    ∧ (∀ id2, id2 ≠ chatId →
        sessionMessages (addMessageToHistory st chatId message now) id2 =
          sessionMessages st id2) :=
  ⟨addMessage_chatSessions st chatId message now,
   addMessage_activeChatId st chatId message now,
   fun _ hm => sessionMessages_addMessage_self hm message now,
   fun h => addMessage_missing h message now,
   fun _ hne => sessionMessages_addMessage_ne hwf hne message now⟩

/-- C9 (witness): adding a message to the initial session appends exactly
the timestamped message to its (empty) history. -/
theorem addMessageToHistory_spec_witness :
    sessionMessages
        (addMessageToHistory (moduleInit "c0") "c0" (userMessage "hi") "t1")
        "c0" =
      some ([] ++ [{ msg := userMessage "hi", timestamp := "t1" }]) :=
  (addMessageToHistory_spec (moduleInit "c0") "c0" (userMessage "hi") "t1"
    (by decide)).2.2.1 [] (by decide)

/-- C10: in every state reachable from module initialization by the
exported chat-manager operations, the active chat id is either `null` or the
id of a session present in the store; and `setActiveChatId` on a
non-existent id leaves the active id unchanged. -/
theorem activeChatId_always_valid (st : ChatManagerState) (h : Reachable st) :
    (st.activeChatId = none ∨
      ∃ id, st.activeChatId = some id ∧
        (alookup id st.chatSessions).isSome)
    ∧ (∀ id, alookup id st.chatSessions = none →
        (setActiveChatId st id).activeChatId = st.activeChatId) := by
  have hav := (reachable_WF_activeValid h).2
  constructor
  · cases hac : st.activeChatId with
    | none => exact Or.inl rfl
    | some id => exact Or.inr ⟨id, rfl, hav id hac⟩
  · intro id hid
    rw [setActiveChatId_missing hid]

/-- C10 (witness): the initial state is reachable, its active id is a
stored session, and setting a non-existent id changes nothing. -/
theorem activeChatId_always_valid_witness :
    ((moduleInit "c0").activeChatId = none ∨
      ∃ id, (moduleInit "c0").activeChatId = some id ∧
        (alookup id (moduleInit "c0").chatSessions).isSome)
    ∧ (setActiveChatId (moduleInit "c0") "zz").activeChatId =
        (moduleInit "c0").activeChatId :=
  ⟨(activeChatId_always_valid (moduleInit "c0") (Reachable.init "c0")).1,
   (activeChatId_always_valid (moduleInit "c0") (Reachable.init "c0")).2
     "zz" (by decide)⟩

/-- C5: `handleSendMessage` is all-or-nothing at the chat history.  After
the user message, exactly one more message reaches the active history: on a
failed query it is the system-role error message (role `system`, no
sources) — no assistant message and no sources are added — and on a
successful query it is the assistant message carrying the response's
sources. -/
theorem handleSendMessage_all_or_nothing (st : ChatManagerState)
    (queryText : String) (result : Except String QueryResponse)
    (t1 t2 : String) (activeId : String) (msgs0 : List StoredMessage)
    (hwf : st.WF) (hactive : getActiveChatId st = some activeId)
    (hmsgs : sessionMessages st activeId = some msgs0)
    (hquery : queryText ≠ "") :
    (∀ emsg, result = Except.error emsg →
      sessionMessages (handleSendMessage st queryText result t1 t2) activeId
        = some (msgs0 ++
            [{ msg := userMessage queryText, timestamp := t1 },
             { msg := chatErrorMessage emsg, timestamp := t2 }])
      ∧ (chatErrorMessage emsg).role = "system"
      ∧ (chatErrorMessage emsg).sources = none)
    ∧ (∀ resp, result = Except.ok resp →
      sessionMessages (handleSendMessage st queryText result t1 t2) activeId
        = some (msgs0 ++
            [{ msg := userMessage queryText, timestamp := t1 },
             { msg := assistantMessage resp, timestamp := t2 }])
      ∧ (assistantMessage resp).role = "assistant"
      ∧ (assistantMessage resp).sources = some resp.sources) := by
  have h1 := sessionMessages_addMessage_self hmsgs
    (userMessage queryText) t1
  have hwf1 := WF_addMessage hwf activeId (userMessage queryText) t1
  have h2 := (sessionMessages_getChatHistory hwf1 activeId activeId).trans h1
  constructor
  · intro emsg hres
    subst hres
    refine ⟨?_, rfl, rfl⟩
    have hstep : handleSendMessage st queryText (Except.error emsg) t1 t2 =
        addMessageToHistory
          (getChatHistory (addMessageToHistory st activeId
              (userMessage queryText) t1) activeId).1
          activeId (chatErrorMessage emsg) t2 := by
      unfold getActiveChatId at hactive
      simp only [handleSendMessage]
      rw [if_neg hquery]
      unfold getActiveChatId
      rw [hactive]
    rw [hstep]
    have h3 := sessionMessages_addMessage_self h2 (chatErrorMessage emsg) t2
    rw [List.append_assoc] at h3
    exact h3
  · intro resp hres
    subst hres
    refine ⟨?_, rfl, rfl⟩
    have hstep : handleSendMessage st queryText (Except.ok resp) t1 t2 =
        addMessageToHistory
          (getChatHistory (addMessageToHistory st activeId
              (userMessage queryText) t1) activeId).1
          activeId (assistantMessage resp) t2 := by
      unfold getActiveChatId at hactive
      simp only [handleSendMessage]
      rw [if_neg hquery]
      unfold getActiveChatId
      rw [hactive]
    rw [hstep]
    have h3 := sessionMessages_addMessage_self h2 (assistantMessage resp) t2
    rw [List.append_assoc] at h3
    exact h3

/-- C5 (witness): on the initial state, a failing query leaves exactly the
user message and a system error message in the active history. -/
theorem handleSendMessage_all_or_nothing_witness :
    sessionMessages
        (handleSendMessage (moduleInit "c0") "hi"
          (Except.error "boom") "t1" "t2") "c0" =
      some ([] ++
        [{ msg := userMessage "hi", timestamp := "t1" },
         { msg := chatErrorMessage "boom", timestamp := "t2" }])
    ∧ (chatErrorMessage "boom").role = "system"
    ∧ (chatErrorMessage "boom").sources = none :=
  (handleSendMessage_all_or_nothing (moduleInit "c0") "hi"
      (Except.error "boom") "t1" "t2" "c0" [] (by decide) (by decide)
      (by decide) (by decide)).1 "boom" rfl
